import Mathlib

/-!
# Verification of the pokemon_api ingestion and CRUD layer

Shallow embedding of the repository's core logic:

* `pokemon_api/web/lifetime.py` — the ingestion pipeline
  (`get_type`, `get_moves`, `get_generation_by_url`, `save_pokemon`,
  `populate_database`);
* `pokemon_api/web/api/pokemons/views.py` — the route handlers
  (`create_pokemon`, `update_pokemon`, `get_pokemon_by_generation`).

The SQLAlchemy session/database pair is modelled as an explicit `Store`
value holding the four tables.  Following SQLAlchemy's default
`autoflush=True` semantics, an object staged with `session.add` is
visible to every later `select` issued through the same session (the
select autoflushes pending rows), so the model's lookups run over the
staged table directly.  Database-assigned surrogate ids are modelled as
assigned at staging time from a per-table counter.  HTTP clients are
modelled as explicit fetch functions; failure-prone fetches return
`Except`.  Python's `random.sample` (sampling without replacement) is
modelled as a draw-and-remove loop driven by an explicit stream of
`randbelow` outputs.
-/

namespace PokemonApi

/-- A row of the `type` or `move` table: integer surrogate id plus the
unique `name` natural key (models `PokeType` / `PokeMove`). -/
structure Row where
  id : Nat
  name : String
deriving DecidableEq, Repr

/-- A row of the `generation` table (models `PokeGeneration`):
externally assigned id, unique name, region string. -/
structure GenRow where
  id : Nat
  name : String
  region : String
deriving DecidableEq, Repr

/-- The `images` JSONB column: a dict of sprite-slot names to URLs. -/
abbrev Images := List (String × String)

/-- A row of the `pokemon` table together with its association rows
(models `Pokemon` with its `types`/`moves` many-to-many collections and
its `generation` many-to-one). -/
structure PokemonRow where
  id : Nat
  name : String
  images : Images
  is_legendary : Bool := false
  generation : Option GenRow := none
  types : List Row := []
  moves : List Row := []
deriving DecidableEq, Repr

/-- The relational store: the four tables plus the surrogate-id
counters for the two name-keyed tables. -/
structure Store where
  typeRows : List Row := []
  nextTypeId : Nat := 1
  moveRows : List Row := []
  nextMoveId : Nat := 1
  genRows : List GenRow := []
  pokemonRows : List PokemonRow := []
deriving DecidableEq, Repr

/-- The shared body of `get_type` and `get_moves` (`lifetime.py` lines
38–53 and 104–121; the two Python functions are textually identical up
to the model class).  For each name in order: `select ... filter_by
(name=name)` over the table (pending adds included, by autoflush); on a
miss, stage a fresh row.  Returns the resolved instances in input
order, the final table, and the next free surrogate id. -/
def resolve_by_name : List String → List Row → Nat → List Row × List Row × Nat
  | [], rows, nid => ([], rows, nid)
  | n :: ns, rows, nid =>
    match rows.find? (fun r => r.name == n) with
    | some r =>
      let res := resolve_by_name ns rows nid
      (r :: res.1, res.2)
    | none =>
      let r : Row := ⟨nid, n⟩
      let res := resolve_by_name ns (rows ++ [r]) (nid + 1)
      (r :: res.1, res.2)

/-- `get_type` (`lifetime.py` 26–53): natural-key upsert of a batch of
type names against the `type` table. -/
def get_type (type_data : List String) (session : Store) : List Row × Store :=
  let res := resolve_by_name type_data session.typeRows session.nextTypeId
  (res.1, { session with typeRows := res.2.1, nextTypeId := res.2.2 })

/-- `get_moves` (`lifetime.py` 93–121): natural-key upsert of a batch
of move names against the `move` table. -/
def get_moves (move_data : List String) (session : Store) : List Row × Store :=
  let res := resolve_by_name move_data session.moveRows session.nextMoveId
  (res.1, { session with moveRows := res.2.1, nextMoveId := res.2.2 })

/-- The `{name, url}` generation reference carried by the species
payload. -/
structure GenRef where
  name : String
  url : String
deriving DecidableEq, Repr

/-- A `{name}` sub-object of an upstream payload. -/
structure NamedRes where
  name : String
deriving DecidableEq, Repr

/-- Payload of the generation endpoint: `{ id, main_region: {name} }`. -/
structure GenPayload where
  id : Nat
  main_region : NamedRes
deriving DecidableEq, Repr

/-- `get_generation_by_url` (`lifetime.py` 56–90): look up the
generation by name; on a miss perform one secondary fetch of
`generation_dict["url"]` and stage a row built from the payload's `id`
and `main_region.name`.  The third component counts the secondary
fetches performed (0 or 1). -/
def get_generation_by_url (generation_dict : GenRef) (fetch : String → GenPayload)
    (session : Store) : GenRow × Store × Nat :=
  let generation_name := generation_dict.name
  match session.genRows.find? (fun g => g.name == generation_name) with
  | some g => (g, session, 0)
  | none =>
    let generation_data := fetch generation_dict.url
    let g : GenRow :=
      { name := generation_name
        id := generation_data.id
        region := generation_data.main_region.name }
    (g, { session with genRows := session.genRows ++ [g] }, 1)

/-- One step of the model of `random.sample(pool, k)`: draw the element
at position `randbelow(len(pool))` and remove it from the pool, `k`
times.  `js` is the stream of `randbelow` outputs; an output is reduced
`% pool.length` so the draw is always in range. -/
def sampleGo {α : Type} [Inhabited α] : Nat → List Nat → List α → List α
  | 0, _, _ => []
  | k + 1, js, pool =>
    if pool.length = 0 then []
    else
      let j := js.headD 0 % pool.length
      pool.getD j default :: sampleGo k js.tail (pool.eraseIdx j)

/-- The move sampling step, inlined identically at `lifetime.py`
138–142 and `views.py` 176–180: `random.sample(moves, 4)` when the
candidate list has more than 4 entries, the list itself otherwise. -/
def select_moves {α : Type} [Inhabited α] (candidates : List α) (js : List Nat) : List α :=
  if candidates.length > 4 then sampleGo 4 js candidates else candidates

instance : Inhabited NamedRes := ⟨⟨""⟩⟩

/-- A `{type: {name}}` entry of the detail payload's `types` list. -/
structure TypeSlot where
  type : NamedRes
deriving DecidableEq, Repr

/-- A `{move: {name}}` entry of the detail payload's `moves` list. -/
structure MoveSlot where
  move : NamedRes
deriving DecidableEq, Repr

instance : Inhabited MoveSlot := ⟨⟨⟨""⟩⟩⟩

/-- The `sprites` object of the detail payload. -/
structure Sprites where
  front_default : String
  back_default : String
deriving DecidableEq, Repr

/-- The merged detail+species record consumed by `save_pokemon`. -/
structure PokeResponse where
  id : Nat
  name : String
  is_legendary : Bool
  types : List TypeSlot
  moves : List MoveSlot
  sprites : Sprites
  generation : GenRef
deriving DecidableEq, Repr

/-- Database-level errors raised at flush/commit time. -/
inductive DBError
  | integrityError
deriving DecidableEq, Repr

/-- `save_pokemon` (`lifetime.py` 124–167): resolve types, sample and
resolve moves, resolve the generation (each sub-resolver commits its
own transaction), then unconditionally `session.add` a new `Pokemon`
row and commit.  The final commit violates the primary-key constraint
when a row with the same id already exists; sub-entity commits made
before it persist, so the result is the final store paired with the
optional commit error. -/
def save_pokemon (response : PokeResponse) (js : List Nat) (fetch : String → GenPayload)
    (session : Store) : Store × Option DBError :=
  let pokemon_id := response.id
  let name := response.name
  let is_legendary := response.is_legendary
  let types := response.types.map (fun typ => typ.type.name)
  let type_res := get_type types session
  -- randomly select 4 moves if length of moves is > 4
  let selected_moves := select_moves response.moves js
  let moves := selected_moves.map (fun mv => mv.move.name)
  let move_res := get_moves moves type_res.2
  let gen_res := get_generation_by_url response.generation fetch move_res.2
  let images : Images :=
    [("front_default", response.sprites.front_default),
     ("back_default", response.sprites.back_default)]
  if gen_res.2.1.pokemonRows.any (fun p => p.id == pokemon_id) then
    (gen_res.2.1, some DBError.integrityError)
  else
    ({ gen_res.2.1 with
        pokemonRows := gen_res.2.1.pokemonRows ++
          [{ id := pokemon_id, name := name, images := images,
             is_legendary := is_legendary, generation := some gen_res.1,
             types := type_res.1, moves := move_res.1 }] },
     none)

/-- Errors of an upstream HTTP fetch (network failure, malformed JSON,
missing required field in a payload). -/
inductive FetchError
  | netError
  | malformed
  | missingField
deriving DecidableEq, Repr

/-- An error aborting an ingestion run: either an uncaught fetch error
or an uncaught database commit error. -/
inductive RunError
  | fetch (e : FetchError)
  | db (e : DBError)
  | fuelExhausted
deriving DecidableEq, Repr

/-- A `{name, url}` entry of the listing payload's `results`. -/
structure ListingEntry where
  name : String
  url : String
deriving DecidableEq, Repr

/-- Payload of the listing endpoint: `{results, next}`. -/
structure ListingPayload where
  results : List ListingEntry
  next : Option String
deriving DecidableEq, Repr

/-- The detail payload (`id, name, types, moves, sprites, species.url`). -/
structure DetailPayload where
  id : Nat
  name : String
  types : List TypeSlot
  moves : List MoveSlot
  sprites : Sprites
  species_url : String
deriving DecidableEq, Repr

/-- The species payload (`is_legendary, generation`). -/
structure SpeciesPayload where
  is_legendary : Bool
  generation : GenRef
deriving DecidableEq, Repr

/-- `{**detail_data, **species_data}` (`lifetime.py` 192): the merged
record, species fields overriding on shared keys. -/
def merge_details (d : DetailPayload) (s : SpeciesPayload) : PokeResponse :=
  { id := d.id
    name := d.name
    is_legendary := s.is_legendary
    types := d.types
    moves := d.moves
    sprites := d.sprites
    generation := s.generation }

/-- The upstream HTTP client: the three fetches used by the page loop,
each of which can fail, plus the (separately constructed) client used
for the secondary generation fetch. -/
structure Client where
  listing : String → Except FetchError ListingPayload
  detail : String → Except FetchError DetailPayload
  species : String → Except FetchError SpeciesPayload
  generationFetch : String → GenPayload

/-- Observable events of an ingestion run (for the throttling and
pagination claims). -/
inductive Ev
  | listingFetch (url : String)
  | sleepSec (n : Nat)
deriving DecidableEq, Repr

/-- The JSON-truthiness of a parsed detail dict (`if detail_data:` at
`lifetime.py` 194); a successfully fetched detail payload is a
non-empty dict, hence truthy. -/
def detail_truthy (_ : DetailPayload) : Bool := true

/-- The inner `for result in data["results"]` loop of
`populate_database` (`lifetime.py` 185–195): fetch detail, fetch
species, merge, save.  No exception handling surrounds the body, so
any fetch or commit error propagates and aborts the run.  `jss` gives
the random stream for the item at each position. -/
def process_items (c : Client) (jss : Nat → List Nat) :
    List ListingEntry → Nat → Store → Except RunError Store
  | [], _, st => .ok st
  | result :: rest, i, st =>
    match c.detail result.url with
    | .error e => .error (.fetch e)
    | .ok detail_data =>
      match c.species detail_data.species_url with
      | .error e => .error (.fetch e)
      | .ok species_data =>
        let complete_detail := merge_details detail_data species_data
        if detail_truthy detail_data then
          match save_pokemon complete_detail (jss i) c.generationFetch st with
          | (_, some dbe) => .error (.db dbe)
          | (st', none) => process_items c jss rest (i + 1) st'
        else
          process_items c jss rest (i + 1) st

/-- The `while poke_url:` page loop of `populate_database`
(`lifetime.py` 180–201).  The loop body fetches the listing page,
processes its items, reads the `next` cursor into `poke_url`, sleeps
one second, and then overwrites `poke_url = False` — so the cursor is
never followed.  The `fuel` argument is an embedding artifact bounding
the unbounded `while`; the claim theorems show one unit is always
enough. -/
def page_loop (c : Client) (jss : Nat → List Nat) :
    Nat → Option String → Store → Except RunError (Store × List Ev)
  | _, none, st => .ok (st, [])
  | 0, some _, _ => .error .fuelExhausted
  | fuel + 1, some url, st =>
    match c.listing url with
    | .error e => .error (.fetch e)
    | .ok data =>
      match process_items c jss data.results 0 st with
      | .error e => .error e
      | .ok st' =>
        let poke_url := data.next
        -- Introduce a delay of 1 second between requests
        let poke_url := (none : Option String)
        match page_loop c jss fuel poke_url st' with
        | .error e => .error e
        | .ok (st'', evs) =>
          .ok (st'', Ev.listingFetch url :: Ev.sleepSec 1 :: evs)

/-- The listing URL `f"{POKEAPI_BASE_URL}/pokemon?limit=500"`. -/
def pokeListUrl : String := "https://pokeapi.co/api/v2/pokemon?limit=500"

/-- `populate_database` (`lifetime.py` 170–201): run the page loop from
the initial listing URL. -/
def populate_database (c : Client) (jss : Nat → List Nat) (st : Store)
    (fuel : Nat) : Except RunError (Store × List Ev) :=
  page_loop c jss fuel (some pokeListUrl) st

/-- Errors surfaced by a route handler: an `HTTPException` with a
status code, or an uncaught Python exception. -/
inductive ApiError
  | http (code : Nat)
  | unboundLocal
  | typeError
  | integrityError
deriving DecidableEq, Repr

/-- Python truthiness of `d.get(key)` for a string-valued key: `None`
and `""` are falsy. -/
def truthyStr : Option String → Bool
  | none => false
  | some s => !(s == "")

/-- Python truthiness of `d.get(key)` for a list-valued key: `None`
and `[]` are falsy. -/
def truthyList {α : Type} : Option (List α) → Bool
  | none => false
  | some l => !l.isEmpty

/-- Python truthiness of `d.get(key)` for an int-valued key: `None`
and `0` are falsy. -/
def truthyNat : Option Nat → Bool
  | none => false
  | some n => !(n == 0)

/-- The parsed request body of `POST /pokemon`: `pokemon_data.get(k)`
for each key, `none` when the key is absent or null. -/
structure CreateBody where
  id : Option Nat := none
  name : Option String := none
  types : Option (List NamedRes) := none
  images : Option Images := none
  moves : Option (List NamedRes) := none
deriving DecidableEq, Repr

/-- `create_pokemon` (`views.py` 146–197): presence-check id, name,
types and images (moves is never checked); resolve types; then take
`len(move_data)` — a `TypeError` when `moves` was absent (`len(None)`)
— sample, resolve moves, and insert the new row.  Returns the handler
outcome together with the store as left by the committed sub-resolver
transactions. -/
def create_pokemon (pokemon_data : CreateBody) (js : List Nat) (session : Store) :
    Except ApiError PokemonRow × Store :=
  let pokemon_id := pokemon_data.id
  let name := pokemon_data.name
  let types_data := pokemon_data.types
  let images := pokemon_data.images
  let move_data := pokemon_data.moves
  if !truthyNat pokemon_id || !truthyStr name ||
      !truthyList types_data || !truthyList images then
    (.error (.http 400), session)
  else
    let types := (types_data.getD []).map (fun typ => typ.name)
    let type_res := get_type types session
    match move_data with
    | none =>
      -- `len(move_data)` with `move_data = None`: unhandled TypeError
      (.error .typeError, type_res.2)
    | some md =>
      let selected_moves := select_moves md js
      let moves := selected_moves.map (fun mv => mv.name)
      let move_res := get_moves moves type_res.2
      let new_pokemon : PokemonRow :=
        { id := pokemon_id.getD 0, name := name.getD "",
          images := images.getD [], types := type_res.1,
          moves := move_res.1 }
      if move_res.2.pokemonRows.any (fun p => p.id == new_pokemon.id) then
        (.error .integrityError, move_res.2)
      else
        (.ok new_pokemon,
         { move_res.2 with pokemonRows := move_res.2.pokemonRows ++ [new_pokemon] })

/-- The parsed request body of `PUT /pokemon/{id}`. -/
structure UpdateBody where
  name : Option String := none
  types : Option (List NamedRes) := none
  images : Option Images := none
deriving DecidableEq, Repr

/-- Truthiness of the images dict: `None` and `{}` are falsy. -/
def truthyImages : Option Images → Bool
  | none => false
  | some l => !l.isEmpty

/-- `update_pokemon` (`views.py` 200–251): `type_instances` is a local
assigned only under `if types_data:`; the Pokémon is then fetched (404
if absent), `name` is overwritten only if truthy, and then
`pokemon.types = type_instances` runs unconditionally — an
`UnboundLocalError` whenever the body carried no truthy type list.
`images` is overwritten only if truthy.  Returns the handler outcome
and the resulting store. -/
def update_pokemon (pokemon_id : Nat) (pokemon_data : UpdateBody) (session : Store) :
    Except ApiError PokemonRow × Store :=
  let name := pokemon_data.name
  let types_data := pokemon_data.types
  let images := pokemon_data.images
  let resolved :=
    if truthyList types_data then
      let types := (types_data.getD []).map (fun typ => typ.name)
      let tr := get_type types session
      (some tr.1, tr.2)
    else (none, session)
  match resolved.2.pokemonRows.find? (fun p => p.id == pokemon_id) with
  | none => (.error (.http 404), resolved.2)
  | some pokemon =>
    let pokemon := if truthyStr name then { pokemon with name := name.getD "" } else pokemon
    match resolved.1 with
    | none =>
      -- `pokemon.types = type_instances` with `type_instances` unassigned
      (.error .unboundLocal, resolved.2)
    | some insts =>
      let pokemon := { pokemon with types := insts }
      let pokemon :=
        if truthyImages images then { pokemon with images := images.getD [] } else pokemon
      (.ok pokemon,
       { resolved.2 with
          pokemonRows := resolved.2.pokemonRows.map
            (fun q => if q.id == pokemon_id then pokemon else q) })

/-- `get_pokemon_by_generation` (`views.py` 365–403): reject with 400
when both filters are truthy, before any session is opened; otherwise
run the corresponding queries.  The second component counts the
`session.execute` calls issued. -/
def get_pokemon_by_generation (generation_name region : Option String) (session : Store) :
    Except ApiError (Option (List PokemonRow)) × Nat :=
  if truthyStr generation_name && truthyStr region then
    (.error (.http 400), 0)
  else if truthyStr generation_name then
    match session.genRows.find? (fun g => g.name == generation_name.getD "") with
    | none => (.error (.http 404), 1)
    | some generation =>
      (.ok (some (session.pokemonRows.filter
        (fun p => p.generation.any (fun g => g.id == generation.id)))), 2)
  else if truthyStr region then
    (.ok (some (session.pokemonRows.filter
      (fun p => p.generation.any (fun g => g.region == region.getD "")))), 1)
  else
    -- both filters falsy: the Python function falls through, returning None
    (.ok none, 0)

/-- A store holding one type row and one Pokémon (id 1) for the C7
failing input. -/
def storeForClaim7 : Store :=
  { typeRows := [⟨1, "grass"⟩]
    nextTypeId := 2
    pokemonRows := [{ id := 1, name := "bulbasaur",
                      images := [("front_default", "u")], types := [⟨1, "grass"⟩] }] }

/-- The already-ingested creature row for the C2 failing input. -/
def storeForClaim2 : Store :=
  { pokemonRows := [{ id := 1, name := "bulbasaur", images := [] }] }

/-- The re-ingested upstream payload for the C2 failing input: the same
upstream id 1 with updated data. -/
def responseForClaim2 : PokeResponse :=
  { id := 1, name := "bulbasaur-updated", is_legendary := false
    types := [⟨⟨"grass"⟩⟩], moves := [⟨⟨"tackle"⟩⟩]
    sprites := ⟨"front", "back"⟩, generation := ⟨"generation-i", "gen-url"⟩ }

/-- A demonstration client whose listing returns two entries and a
`next` cursor, with every fetch succeeding. -/
def clientAllOk : Client :=
  { listing := fun _ =>
      .ok { results := [⟨"bulbasaur", "u1"⟩, ⟨"ivysaur", "u2"⟩], next := some "page2" }
    detail := fun u =>
      .ok { id := if u == "u1" then 1 else 2
            name := if u == "u1" then "bulbasaur" else "ivysaur"
            types := [⟨⟨"grass"⟩⟩], moves := [⟨⟨"tackle"⟩⟩]
            sprites := ⟨"f", "b"⟩, species_url := "s" }
    species := fun _ => .ok { is_legendary := false, generation := ⟨"generation-i", "gu"⟩ }
    generationFetch := fun _ => ⟨1, ⟨"kanto"⟩⟩ }

/-- The detail payload of the second (healthy) item of
`clientFirstItemFails`. -/
def detailIvysaur : DetailPayload :=
  { id := 2, name := "ivysaur", types := [⟨⟨"grass"⟩⟩], moves := [⟨⟨"tackle"⟩⟩]
    sprites := ⟨"f", "b"⟩, species_url := "s2" }

/-- A client whose listing fetch succeeds with two items but whose
first item's detail fetch fails with a network error; the second
item's fetches all succeed. -/
def clientFirstItemFails : Client :=
  { listing := fun _ =>
      .ok { results := [⟨"bulbasaur", "u1"⟩, ⟨"ivysaur", "u2"⟩], next := some "page2" }
    detail := fun u => if u == "u2" then .ok detailIvysaur else .error .netError
    species := fun _ => .ok { is_legendary := false, generation := ⟨"generation-i", "gu"⟩ }
    generationFetch := fun _ => ⟨1, ⟨"kanto"⟩⟩ }

/-- An ingestion payload with six candidate moves, used to witness the
sample-then-upsert claim. -/
def responseForClaim4 : PokeResponse :=
  { id := 7, name := "squirtle", is_legendary := false
    types := [⟨⟨"water"⟩⟩]
    moves := [⟨⟨"m0"⟩⟩, ⟨⟨"m1"⟩⟩, ⟨⟨"m2"⟩⟩, ⟨⟨"m3"⟩⟩, ⟨⟨"m4"⟩⟩, ⟨⟨"m5"⟩⟩]
    sprites := ⟨"f", "b"⟩, generation := ⟨"generation-i", "gu"⟩ }

/-! ## Lemmas about the natural-key upsert resolver -/

theorem find?_append_some {l l₂ : List Row} {p : Row → Bool} {r : Row}
    (h : l.find? p = some r) : (l ++ l₂).find? p = some r := by
  simp [List.find?_append, h]

theorem find?_append_none {l l₂ : List Row} {p : Row → Bool}
    (h : l.find? p = none) : (l ++ l₂).find? p = l₂.find? p := by
  simp [List.find?_append, h]

/-- The resolver returns one instance per input name. -/
theorem resolve_length (ns : List String) (rows : List Row) (nid : Nat) :
    (resolve_by_name ns rows nid).1.length = ns.length := by
  induction ns generalizing rows nid with
  | nil => simp [resolve_by_name]
  | cons n ns ih =>
    simp only [resolve_by_name]
    cases h : rows.find? (fun r => r.name == n) with
    | some r => simp [ih]
    | none => simp [ih]

/-- A row found by a predicate before the resolver runs is still the
first such row afterwards: the resolver only appends rows. -/
theorem resolve_find_stable (ns : List String) (rows : List Row) (nid : Nat)
    {p : Row → Bool} {r : Row} (h : rows.find? p = some r) :
    (resolve_by_name ns rows nid).2.1.find? p = some r := by
  induction ns generalizing rows nid with
  | nil => simpa [resolve_by_name] using h
  | cons n ns ih =>
    simp only [resolve_by_name]
    cases hf : rows.find? (fun x => x.name == n) with
    | some r' => simpa using ih rows nid h
    | none => simpa using ih (rows ++ [⟨nid, n⟩]) (nid + 1) (find?_append_some h)

/-- The i-th returned instance is the first row of the final table
bearing the i-th input name. -/
theorem resolve_inst_is_first_row (ns : List String) (rows : List Row) (nid : Nat) :
    ∀ (i : Nat) (n : String) (inst : Row),
      ns[i]? = some n → (resolve_by_name ns rows nid).1[i]? = some inst →
      (resolve_by_name ns rows nid).2.1.find? (fun r => r.name == n) = some inst := by
  induction ns generalizing rows nid with
  | nil => intro i n inst h; simp at h
  | cons n₀ ns ih =>
    intro i n inst hn hinst
    simp only [resolve_by_name] at hinst ⊢
    cases hf : rows.find? (fun x => x.name == n₀) with
    | some r =>
      rw [hf] at hinst
      simp only at hinst ⊢
      cases i with
      | zero =>
        simp only [List.getElem?_cons_zero, Option.some.injEq] at hn hinst
        rw [← hinst, ← hn]
        exact resolve_find_stable ns rows nid hf
      | succ i =>
        simp only [List.getElem?_cons_succ] at hn hinst
        exact ih rows nid i n inst hn hinst
    | none =>
      rw [hf] at hinst
      simp only at hinst ⊢
      cases i with
      | zero =>
        simp only [List.getElem?_cons_zero, Option.some.injEq] at hn hinst
        rw [← hinst, ← hn]
        refine resolve_find_stable ns (rows ++ [⟨nid, n₀⟩]) (nid + 1) ?_
        rw [find?_append_none hf]
        simp
      | succ i =>
        simp only [List.getElem?_cons_succ] at hn hinst
        exact ih (rows ++ [⟨nid, n₀⟩]) (nid + 1) i n inst hn hinst

/-- Any row of the final table either pre-existed or bears one of the
input names: the resolver never creates a row for a name it was not
given. -/
theorem resolve_mem_rows (ns : List String) (rows : List Row) (nid : Nat) {r : Row}
    (h : r ∈ (resolve_by_name ns rows nid).2.1) : r ∈ rows ∨ r.name ∈ ns := by
  induction ns generalizing rows nid with
  | nil => exact Or.inl (by simpa [resolve_by_name] using h)
  | cons n ns ih =>
    simp only [resolve_by_name] at h
    cases hf : rows.find? (fun x => x.name == n) with
    | some r' =>
      rw [hf] at h
      rcases ih rows nid (by simpa using h) with hmem | hname
      · exact Or.inl hmem
      · exact Or.inr (List.mem_cons_of_mem _ hname)
    | none =>
      rw [hf] at h
      rcases ih (rows ++ [⟨nid, n⟩]) (nid + 1) (by simpa using h) with hmem | hname
      · rcases List.mem_append.1 hmem with hl | hr
        · exact Or.inl hl
        · simp at hr
          exact Or.inr (by simp [hr])
      · exact Or.inr (List.mem_cons_of_mem _ hname)

/-- The resolver preserves uniqueness of the name column: a fresh row
is staged only after the lookup for that name missed. -/
theorem resolve_names_nodup (ns : List String) (rows : List Row) (nid : Nat)
    (hnd : (rows.map Row.name).Nodup) :
    ((resolve_by_name ns rows nid).2.1.map Row.name).Nodup := by
  induction ns generalizing rows nid with
  | nil => simpa [resolve_by_name] using hnd
  | cons n ns ih =>
    simp only [resolve_by_name]
    cases hf : rows.find? (fun x => x.name == n) with
    | some r => simpa using ih rows nid hnd
    | none =>
      refine ih (rows ++ [⟨nid, n⟩]) (nid + 1) ?_
      rw [List.find?_eq_none] at hf
      have hn : ∀ x ∈ rows, ¬ x.name = n := fun x hx => by simpa using hf x hx
      simpa [List.nodup_append] using ⟨hnd, hn⟩

/-- Every input name has a row in the final table. -/
theorem resolve_name_mem (ns : List String) (rows : List Row) (nid : Nat)
    {n : String} (hn : n ∈ ns) :
    ∃ r ∈ (resolve_by_name ns rows nid).2.1, r.name = n := by
  obtain ⟨i, hi, hget⟩ := List.mem_iff_getElem.1 hn
  have hlen : i < (resolve_by_name ns rows nid).1.length := by
    rw [resolve_length]; exact hi
  obtain ⟨inst, hinst⟩ : ∃ inst, (resolve_by_name ns rows nid).1[i]? = some inst := by
    rw [List.getElem?_eq_getElem hlen]
    exact ⟨_, rfl⟩
  have := resolve_inst_is_first_row ns rows nid i n inst
    (by rw [List.getElem?_eq_getElem hi, hget]) hinst
  exact ⟨_, List.mem_of_find?_eq_some this, by simpa using List.find?_some this⟩

/-- With unique names, a member row is the only row bearing its name. -/
theorem filter_name_length_one {rows : List Row} (hnd : (rows.map Row.name).Nodup)
    {r : Row} (hr : r ∈ rows) {n : String} (hn : r.name = n) :
    (rows.filter (fun x => x.name == n)).length = 1 := by
  induction rows with
  | nil => cases hr
  | cons a rows ih =>
    simp only [List.map_cons, List.nodup_cons] at hnd
    obtain ⟨ha, hnd'⟩ := hnd
    rcases List.mem_cons.1 hr with rfl | hr'
    · have hnil : rows.filter (fun x => x.name == n) = [] := by
        rw [List.filter_eq_nil_iff]
        intro x hx
        simp only [beq_iff_eq]
        intro hxn
        exact ha (hn ▸ hxn ▸ List.mem_map_of_mem Row.name hx)
      simp [List.filter_cons, hn, hnil]
    · have hne : (a.name == n) = false := by
        simp only [beq_eq_false_iff_ne, ne_eq]
        intro han
        exact ha (han ▸ hn ▸ List.mem_map_of_mem Row.name hr')
      simp [List.filter_cons, hne, ih hnd' hr']

/-- The dedup specification of the resolver: positionally equal names
resolve to the same instance, name-uniqueness of the table is
preserved, and each input name ends with exactly one row. -/
theorem resolve_dedup_spec (ns : List String) (rows : List Row) (nid : Nat)
    (hnd : (rows.map Row.name).Nodup) :
    (∀ (i j : Nat), ns[i]? = ns[j]? →
      (resolve_by_name ns rows nid).1[i]? = (resolve_by_name ns rows nid).1[j]?) ∧
    ((resolve_by_name ns rows nid).2.1.map Row.name).Nodup ∧
    (∀ n ∈ ns, ((resolve_by_name ns rows nid).2.1.filter
      (fun r => r.name == n)).length = 1) := by
  refine ⟨?_, resolve_names_nodup ns rows nid hnd, ?_⟩
  · intro i j hij
    cases hn : ns[i]? with
    | none =>
      have hj : ns[j]? = none := hij ▸ hn
      have hi' : ns.length ≤ i := by
        rcases Nat.lt_or_ge i ns.length with hlt | hge
        · rw [List.getElem?_eq_getElem hlt] at hn; cases hn
        · exact hge
      have hj' : ns.length ≤ j := by
        rcases Nat.lt_or_ge j ns.length with hlt | hge
        · rw [List.getElem?_eq_getElem hlt] at hj; cases hj
        · exact hge
      rw [List.getElem?_eq_none (by rw [resolve_length]; exact hi'),
          List.getElem?_eq_none (by rw [resolve_length]; exact hj')]
    | some n =>
      have hj : ns[j]? = some n := hij ▸ hn
      have hi' : i < ns.length := by
        rcases Nat.lt_or_ge i ns.length with hlt | hge
        · exact hlt
        · rw [List.getElem?_eq_none hge] at hn; cases hn
      have hj' : j < ns.length := by
        rcases Nat.lt_or_ge j ns.length with hlt | hge
        · exact hlt
        · rw [List.getElem?_eq_none hge] at hj; cases hj
      have hil : i < (resolve_by_name ns rows nid).1.length := by
        rw [resolve_length]; exact hi'
      have hjl : j < (resolve_by_name ns rows nid).1.length := by
        rw [resolve_length]; exact hj'
      have h1 := resolve_inst_is_first_row ns rows nid i n _ hn
        (List.getElem?_eq_getElem hil)
      have h2 := resolve_inst_is_first_row ns rows nid j n _ hj
        (List.getElem?_eq_getElem hjl)
      rw [List.getElem?_eq_getElem hil, List.getElem?_eq_getElem hjl]
      exact congrArg some (Option.some.inj (h1.symm.trans h2))
  · intro n hn
    obtain ⟨r, hr, hrn⟩ := resolve_name_mem ns rows nid hn
    exact filter_name_length_one (resolve_names_nodup ns rows nid hnd) hr hrn

theorem get_type_moveRows (ns : List String) (st : Store) :
    (get_type ns st).2.moveRows = st.moveRows := rfl

theorem get_type_nextMoveId (ns : List String) (st : Store) :
    (get_type ns st).2.nextMoveId = st.nextMoveId := rfl

theorem get_moves_moveRows (ns : List String) (st : Store) :
    (get_moves ns st).2.moveRows = (resolve_by_name ns st.moveRows st.nextMoveId).2.1 := rfl

/-- The generation resolver never touches the `move` table. -/
theorem gen_moveRows (ref : GenRef) (fetch : String → GenPayload) (st : Store) :
    (get_generation_by_url ref fetch st).2.1.moveRows = st.moveRows := by
  simp only [get_generation_by_url]
  rcases hf : st.genRows.find? (fun g => g.name == ref.name) with _ | g <;> simp [hf]

/-- The `move` table left by `save_pokemon` is exactly the table left
by resolving the sampled move names — the generation resolver and the
final creature insert never touch it. -/
theorem save_pokemon_moveRows (response : PokeResponse) (js : List Nat)
    (fetch : String → GenPayload) (st : Store) :
    (save_pokemon response js fetch st).1.moveRows =
      (get_moves ((select_moves response.moves js).map (fun mv => mv.move.name))
        (get_type (response.types.map (fun typ => typ.type.name)) st).2).2.moveRows := by
  simp only [save_pokemon]
  split
  · exact gen_moveRows _ _ _
  · exact gen_moveRows _ _ _

/-! ## Lemmas about the sampling step -/

theorem sampleGo_zero {α : Type} [Inhabited α] (js : List Nat) (pool : List α) :
    sampleGo 0 js pool = [] := rfl

theorem sampleGo_succ_pos {α : Type} [Inhabited α] (k : Nat) (js : List Nat)
    (pool : List α) (h : pool.length ≠ 0) :
    sampleGo (k + 1) js pool =
      pool.getD (js.headD 0 % pool.length) default ::
        sampleGo k js.tail (pool.eraseIdx (js.headD 0 % pool.length)) := by
  simp [sampleGo, h]

/-- Sampling `k` of at least `k` elements yields exactly `k`. -/
theorem sampleGo_length {α : Type} [Inhabited α] (k : Nat) (js : List Nat)
    (pool : List α) (hk : k ≤ pool.length) : (sampleGo k js pool).length = k := by
  induction k generalizing js pool with
  | zero => simp [sampleGo]
  | succ k ih =>
    have hpos : pool.length ≠ 0 := by omega
    have hj : js.headD 0 % pool.length < pool.length :=
      Nat.mod_lt _ (Nat.pos_of_ne_zero hpos)
    rw [sampleGo_succ_pos k js pool hpos, List.length_cons, ih]
    rw [List.length_eraseIdx_of_lt hj]
    omega

/-- Removing position `j` and re-consing the element there is a
permutation of the pool. -/
theorem perm_getElem_cons_eraseIdx {α : Type} (l : List α) (j : Nat) (h : j < l.length) :
    List.Perm l (l[j] :: l.eraseIdx j) := by
  induction l generalizing j with
  | nil => simp at h
  | cons a t ih =>
    cases j with
    | zero => simp
    | succ j =>
      have hj : j < t.length := by simpa using h
      have h1 : List.Perm (a :: t) (a :: (t[j] :: t.eraseIdx j)) :=
        List.Perm.cons a (ih j hj)
      have hswap : List.Perm (a :: (t[j] :: t.eraseIdx j)) (t[j] :: a :: t.eraseIdx j) :=
        List.Perm.swap _ _ _
      simpa using h1.trans hswap

/-- Whatever the random stream, the sample is drawn from the pool
without replacement. -/
theorem sampleGo_subperm {α : Type} [Inhabited α] (k : Nat) (js : List Nat)
    (pool : List α) : List.Subperm (sampleGo k js pool) pool := by
  induction k generalizing js pool with
  | zero => simp [sampleGo, List.nil_subperm]
  | succ k ih =>
    by_cases hpos : pool.length = 0
    · simp [sampleGo, hpos, List.nil_subperm]
    · rw [sampleGo_succ_pos k js pool hpos]
      have hj : js.headD 0 % pool.length < pool.length :=
        Nat.mod_lt _ (Nat.pos_of_ne_zero hpos)
      rw [List.getD_eq_getElem pool default hj]
      have hcons : List.Subperm
          (pool[js.headD 0 % pool.length] ::
            sampleGo k js.tail (pool.eraseIdx (js.headD 0 % pool.length)))
          (pool[js.headD 0 % pool.length] ::
            pool.eraseIdx (js.headD 0 % pool.length)) :=
        (List.subperm_cons _).2 (ih _ _)
      exact hcons.trans (perm_getElem_cons_eraseIdx pool _ hj).symm.subperm

theorem subperm_nodup {α : Type} {l₁ l₂ : List α} (h : List.Subperm l₁ l₂) (hnd : l₂.Nodup) :
    l₁.Nodup := by
  obtain ⟨l, hp, hs⟩ := h
  exact (hnd.sublist hs).perm hp

/-- A member of the pool other than the removed one survives
`eraseIdx`. -/
theorem mem_eraseIdx_of_ne {α : Type} {l : List α} {j : Nat} (hj : j < l.length)
    {y : α} (hy : y ∈ l) (hne : y ≠ l[j]) : y ∈ l.eraseIdx j := by
  induction l generalizing j with
  | nil => cases hy
  | cons a t ih =>
    cases j with
    | zero =>
      simp only [List.getElem_cons_zero] at hne
      rcases List.mem_cons.1 hy with rfl | hyt
      · exact absurd rfl hne
      · simpa using hyt
    | succ j =>
      have hj' : j < t.length := by simpa using hj
      simp only [List.getElem_cons_succ] at hne
      rw [List.eraseIdx_cons_succ]
      rcases List.mem_cons.1 hy with rfl | hyt
      · exact List.mem_cons_self _ _
      · exact List.mem_cons_of_mem _ (ih hj' hyt hne)

/-- In a duplicate-free pool the removed element is gone. -/
theorem not_mem_eraseIdx_self {α : Type} {l : List α} (hnd : l.Nodup) {j : Nat}
    (hj : j < l.length) : l[j] ∉ l.eraseIdx j := by
  induction l generalizing j with
  | nil => simp at hj
  | cons a t ih =>
    rw [List.nodup_cons] at hnd
    cases j with
    | zero => simpa using hnd.1
    | succ j =>
      have hj' : j < t.length := by simpa using hj
      simp only [List.getElem_cons_succ, List.eraseIdx_cons_succ, List.mem_cons]
      push_neg
      refine ⟨?_, ih hnd.2 hj'⟩
      intro heq
      exact hnd.1 (heq ▸ List.getElem_mem hj')

/-- Distinct valid random streams produce distinct samples from a
duplicate-free pool. -/
theorem sampleGo_injOn {α : Type} [Inhabited α] (k : Nat) (pool : List α)
    (hnd : pool.Nodup) :
    Set.InjOn (fun js => sampleGo k js pool)
      {js : List Nat | js.length = k ∧ ∀ i < k, js.getD i 0 < pool.length - i} := by
  induction k generalizing pool with
  | zero =>
    intro a ha b hb _
    rw [List.length_eq_zero.1 ha.1, List.length_eq_zero.1 hb.1]
  | succ k ih =>
    rintro a ⟨ha1, ha2⟩ b ⟨hb1, hb2⟩ heq
    cases a with
    | nil => simp at ha1
    | cons a0 at' =>
    cases b with
    | nil => simp at hb1
    | cons b0 bt =>
    have ha0 : a0 < pool.length := by simpa using ha2 0 (Nat.succ_pos k)
    have hb0 : b0 < pool.length := by simpa using hb2 0 (Nat.succ_pos k)
    have hpos : pool.length ≠ 0 := by omega
    simp only [sampleGo_succ_pos k _ pool hpos, List.headD_cons, List.tail_cons,
      Nat.mod_eq_of_lt ha0, Nat.mod_eq_of_lt hb0, List.cons.injEq] at heq
    rw [List.getD_eq_getElem pool default ha0,
        List.getD_eq_getElem pool default hb0] at heq
    have h00 : a0 = b0 := (hnd.getElem_inj_iff).1 heq.1
    subst h00
    have hlen' : (pool.eraseIdx a0).length = pool.length - 1 :=
      List.length_eraseIdx_of_lt ha0
    have htails : at' = bt := by
      refine ih (pool.eraseIdx a0) (hnd.eraseIdx a0) ⟨by simpa using ha1, ?_⟩
        ⟨by simpa using hb1, ?_⟩ heq.2
      · intro i hi
        have := ha2 (i + 1) (by omega)
        rw [List.getD_cons_succ] at this
        omega
      · intro i hi
        have := hb2 (i + 1) (by omega)
        rw [List.getD_cons_succ] at this
        omega
    rw [htails]

/-- Every duplicate-free selection from a duplicate-free pool is hit
by some valid random stream. -/
theorem sampleGo_surjOn {α : Type} [Inhabited α] [DecidableEq α] (k : Nat)
    (pool : List α) (hnd : pool.Nodup) (hk : k ≤ pool.length) :
    Set.SurjOn (fun js => sampleGo k js pool)
      {js : List Nat | js.length = k ∧ ∀ i < k, js.getD i 0 < pool.length - i}
      {l : List α | l.length = k ∧ l.Nodup ∧ ∀ x ∈ l, x ∈ pool} := by
  induction k generalizing pool with
  | zero =>
    rintro l ⟨hl, -, -⟩
    refine ⟨[], ⟨rfl, by intro i hi; omega⟩, ?_⟩
    simp only [sampleGo]
    exact (List.length_eq_zero.1 hl).symm
  | succ k ih =>
    rintro l ⟨hlen, hnodup, hmem⟩
    cases l with
    | nil => simp at hlen
    | cons x rest =>
    have hx : x ∈ pool := hmem x (List.mem_cons_self x rest)
    have hj : pool.indexOf x < pool.length := List.indexOf_lt_length.2 hx
    have hget : pool[pool.indexOf x] = x := List.getElem_indexOf hj
    rw [List.nodup_cons] at hnodup
    have hrest_len : rest.length = k := by simpa using hlen
    have herlen : (pool.eraseIdx (pool.indexOf x)).length = pool.length - 1 :=
      List.length_eraseIdx_of_lt hj
    have hrest_sub : ∀ y ∈ rest, y ∈ pool.eraseIdx (pool.indexOf x) := by
      intro y hy
      refine mem_eraseIdx_of_ne hj (hmem y (List.mem_cons_of_mem x hy)) ?_
      rw [hget]
      rintro rfl
      exact hnodup.1 hy
    obtain ⟨js', ⟨hjs'len, hjs'cond⟩, hjs'eq⟩ :=
      ih (pool.eraseIdx (pool.indexOf x)) (hnd.eraseIdx _) (by omega)
        ⟨hrest_len, hnodup.2, hrest_sub⟩
    refine ⟨pool.indexOf x :: js', ⟨by simp [hjs'len], ?_⟩, ?_⟩
    · intro i hi
      cases i with
      | zero => simpa using hj
      | succ i =>
        have := hjs'cond i (by omega)
        rw [List.getD_cons_succ]
        omega
    · have hpos : pool.length ≠ 0 := by omega
      show sampleGo (k + 1) (pool.indexOf x :: js') pool = x :: rest
      rw [sampleGo_succ_pos k _ pool hpos]
      simp only [List.headD_cons, List.tail_cons, Nat.mod_eq_of_lt hj]
      rw [List.getD_eq_getElem pool default hj, hget]
      exact congrArg (x :: ·) hjs'eq

/-- The full specification of the sampler on a duplicate-free pool:
valid random streams map onto the duplicate-free `k`-selections of the
pool, bijectively — a uniform random stream therefore induces a
uniform selection. -/
theorem sampleGo_bijOn {α : Type} [Inhabited α] [DecidableEq α] (k : Nat)
    (pool : List α) (hnd : pool.Nodup) (hk : k ≤ pool.length) :
    Set.BijOn (fun js => sampleGo k js pool)
      {js : List Nat | js.length = k ∧ ∀ i < k, js.getD i 0 < pool.length - i}
      {l : List α | l.length = k ∧ l.Nodup ∧ ∀ x ∈ l, x ∈ pool} := by
  refine ⟨?_, sampleGo_injOn k pool hnd, sampleGo_surjOn k pool hnd hk⟩
  rintro js ⟨hjs1, hjs2⟩
  exact ⟨sampleGo_length k js pool hk,
    subperm_nodup (sampleGo_subperm k js pool) hnd,
    fun x hx => (sampleGo_subperm k js pool).subset hx⟩

theorem eraseIdx_map_comm {α β : Type} (f : α → β) (l : List α) (j : Nat) :
    (l.map f).eraseIdx j = (l.eraseIdx j).map f := by
  induction l generalizing j with
  | nil => simp
  | cons a t ih => cases j <;> simp [ih]

/-- Sampling commutes with `map`: sampling values is sampling
positions and reading them off. -/
theorem sampleGo_map {α : Type} [Inhabited α] (k : Nat) (js : List Nat)
    (idx : List Nat) (f : Nat → α) :
    sampleGo k js (idx.map f) = (sampleGo k js idx).map f := by
  induction k generalizing js idx with
  | zero => simp [sampleGo]
  | succ k ih =>
    by_cases h : idx.length = 0
    · rw [List.length_eq_zero.1 h]
      simp [sampleGo]
    · have hlen : (idx.map f).length = idx.length := by simp
      have hj : js.headD 0 % idx.length < idx.length :=
        Nat.mod_lt _ (Nat.pos_of_ne_zero h)
      rw [sampleGo_succ_pos k js _ (by rw [hlen]; exact h),
          sampleGo_succ_pos k js idx h, List.map_cons, hlen]
      congr 1
      · rw [List.getD_eq_getElem _ _ (by rw [hlen]; exact hj),
            List.getD_eq_getElem _ _ hj, List.getElem_map]
      · rw [eraseIdx_map_comm, ih]

/-- Reading every position of a list in order reproduces the list. -/
theorem range_map_getD {α : Type} [Inhabited α] (l : List α) :
    (List.range l.length).map (fun i => l.getD i default) = l := by
  apply List.ext_getElem
  · simp
  · intro i h1 h2
    simp [List.getD_eq_getElem, List.getElem?_eq_getElem h2]

/-! ## Claim theorems -/

/-- C10: a `POST /pokemon` body with truthy `id`, `name`, `types` and
`images` but no `moves` key passes the handler's required-field check
(which never inspects `moves`) and then evaluates `len(None)`, raising
an unhandled `TypeError` instead of a 400 validation error. -/
theorem claim10_create_missing_moves_raises_type_error
    (body : CreateBody) (js : List Nat) (st : Store)
    (hid : truthyNat body.id = true) (hname : truthyStr body.name = true)
    (htypes : truthyList body.types = true) (himages : truthyList body.images = true)
    (hmoves : body.moves = none) :
    (create_pokemon body js st).1 = .error .typeError := by
  unfold create_pokemon
  simp [hid, hname, htypes, himages, hmoves]

/-- Witness for C10: the concrete body
`{id: 25, name: "pikachu", types: [{name: "electric"}], images: {...}}`
with no `moves` key yields the unhandled `TypeError`. -/
theorem claim10_witness :
    (create_pokemon
      { id := some 25, name := some "pikachu", types := some [⟨"electric"⟩],
        images := some [("front_default", "u")] } [] {}).1 = .error .typeError :=
  claim10_create_missing_moves_raises_type_error _ [] {}
    (by decide) (by decide) (by decide) (by decide) rfl

/-- C8: a `GET /pokemon/by_generations` request supplying both a
(truthy) generation-name filter and a (truthy) region filter is
rejected with HTTP 400 before any query is executed. -/
theorem claim8_generation_region_filters_rejected_together
    (generation_name region : Option String) (st : Store)
    (hg : truthyStr generation_name = true) (hr : truthyStr region = true) :
    get_pokemon_by_generation generation_name region st = (.error (.http 400), 0) := by
  unfold get_pokemon_by_generation
  simp [hg, hr]

/-- Witness for C8: `?generation_name=generation-i&region=kanto` is
rejected with 400 and zero queries run. -/
theorem claim8_witness :
    get_pokemon_by_generation (some "generation-i") (some "kanto") {}
      = (.error (.http 400), 0) :=
  claim8_generation_region_filters_rejected_together _ _ {} (by decide) (by decide)

/-- C7 is a code bug: on `PUT /pokemon/1` with body `{"name":
"bulba2"}` (type list omitted) against an existing Pokémon, the
handler reaches `pokemon.types = type_instances` with the local
`type_instances` never assigned, so it raises an unhandled
`UnboundLocalError` instead of leaving the stored type set unchanged;
the commit is never reached and the store is left as it was. -/
theorem claim7_update_omitting_types_raises_unbound_local :
    (storeForClaim7.pokemonRows.find? (fun p => p.id == 1)).isSome = true ∧
    (update_pokemon 1 { name := some "bulba2" } storeForClaim7).1
      = .error .unboundLocal ∧
    (update_pokemon 1 { name := some "bulba2" } storeForClaim7).2 = storeForClaim7 :=
  ⟨rfl, rfl, rfl⟩

/-- C2 is a code bug: `save_pokemon` performs an unconditional
`session.add` with no existence check, so re-ingesting an upstream id
already present ends in a primary-key `IntegrityError` at commit; the
existing row is neither updated nor (per the claim's intent) upserted
— the old row survives unchanged and the new data is lost. -/
theorem claim2_reingest_same_id_hits_integrity_error :
    (save_pokemon responseForClaim2 [] (fun _ => ⟨1, ⟨"kanto"⟩⟩) storeForClaim2).2
      = some .integrityError ∧
    (save_pokemon responseForClaim2 [] (fun _ => ⟨1, ⟨"kanto"⟩⟩) storeForClaim2).1.pokemonRows
      = [{ id := 1, name := "bulbasaur", images := [] }] :=
  ⟨rfl, rfl⟩

/-- C5: when the generation name is not yet in the store,
`get_generation_by_url` performs exactly one secondary fetch of the
provided URL and the constructed row's `id` and `region` are the
payload's `id` and `main_region.name`; when the name is already
present, no secondary fetch happens. -/
theorem claim5_generation_single_secondary_fetch
    (ref : GenRef) (fetch : String → GenPayload) (st : Store) :
    ((∀ g ∈ st.genRows, g.name ≠ ref.name) →
      (get_generation_by_url ref fetch st).2.2 = 1 ∧
      (get_generation_by_url ref fetch st).1.id = (fetch ref.url).id ∧
      (get_generation_by_url ref fetch st).1.region = (fetch ref.url).main_region.name) ∧
    ((∃ g ∈ st.genRows, g.name = ref.name) →
      (get_generation_by_url ref fetch st).2.2 = 0) := by
  constructor
  · intro habs
    have hf : st.genRows.find? (fun g => g.name == ref.name) = none := by
      rw [List.find?_eq_none]
      intro g hg
      simpa using habs g hg
    simp [get_generation_by_url, hf]
  · rintro ⟨g, hg, hname⟩
    cases hf : st.genRows.find? (fun x => x.name == ref.name) with
    | some g' => simp [get_generation_by_url, hf]
    | none =>
      rw [List.find?_eq_none] at hf
      exact absurd (by simpa using hname) (hf g hg)

/-- Witness for C5: resolving `generation-i` against an empty store
fetches once and copies `id`/`main_region.name` from the payload;
resolving it again against the resulting store fetches zero times. -/
theorem claim5_witness :
    (get_generation_by_url ⟨"generation-i", "gen-url"⟩
        (fun _ => ⟨1, ⟨"kanto"⟩⟩) {}).2.2 = 1 ∧
    (get_generation_by_url ⟨"generation-i", "gen-url"⟩
        (fun _ => ⟨1, ⟨"kanto"⟩⟩) {}).1.id = 1 ∧
    (get_generation_by_url ⟨"generation-i", "gen-url"⟩
        (fun _ => ⟨1, ⟨"kanto"⟩⟩) {}).1.region = "kanto" ∧
    (get_generation_by_url ⟨"generation-i", "gen-url"⟩ (fun _ => ⟨1, ⟨"kanto"⟩⟩)
        { genRows := [⟨1, "generation-i", "kanto"⟩] }).2.2 = 0 := by
  refine ⟨?_, ?_, ?_, ?_⟩
  · exact ((claim5_generation_single_secondary_fetch ⟨"generation-i", "gen-url"⟩
      (fun _ => ⟨1, ⟨"kanto"⟩⟩) {}).1 (by intro g hg; cases hg)).1
  · exact ((claim5_generation_single_secondary_fetch ⟨"generation-i", "gen-url"⟩
      (fun _ => ⟨1, ⟨"kanto"⟩⟩) {}).1 (by intro g hg; cases hg)).2.1
  · exact ((claim5_generation_single_secondary_fetch ⟨"generation-i", "gen-url"⟩
      (fun _ => ⟨1, ⟨"kanto"⟩⟩) {}).1 (by intro g hg; cases hg)).2.2
  · exact (claim5_generation_single_secondary_fetch ⟨"generation-i", "gen-url"⟩
      (fun _ => ⟨1, ⟨"kanto"⟩⟩) _).2 ⟨⟨1, "generation-i", "kanto"⟩, by simp, rfl⟩

/-- C9: the page loop of `populate_database` runs exactly one
iteration no matter how much fuel the `while` is given — the `next`
cursor read from the listing payload is overwritten with `False`
before the loop guard is re-tested — and a successful run's event
trace is exactly one listing fetch followed by the one-second delay
taken after the page's items were processed. -/
theorem claim9_single_listing_page_with_throttle
    (c : Client) (jss : Nat → List Nat) (st : Store) (fuel : Nat) (hfuel : 1 ≤ fuel) :
    populate_database c jss st fuel = populate_database c jss st 1 ∧
    ∀ st' evs, populate_database c jss st fuel = .ok (st', evs) →
      evs = [Ev.listingFetch pokeListUrl, Ev.sleepSec 1] := by
  obtain ⟨n, rfl⟩ : ∃ n, fuel = n + 1 := ⟨fuel - 1, by omega⟩
  have hloop : populate_database c jss st (n + 1) = populate_database c jss st 1 := by
    unfold populate_database
    cases hl : c.listing pokeListUrl with
    | error e => simp [page_loop, hl]
    | ok data =>
      cases hp : process_items c jss data.results 0 st with
      | error e => simp [page_loop, hl, hp]
      | ok st1 => simp [page_loop, hl, hp]
  refine ⟨hloop, ?_⟩
  intro st' evs hok
  rw [hloop] at hok
  unfold populate_database at hok
  cases hl : c.listing pokeListUrl with
  | error e => simp [page_loop, hl] at hok
  | ok data =>
    cases hp : process_items c jss data.results 0 st with
    | error e => simp [page_loop, hl, hp] at hok
    | ok st1 =>
      simp [page_loop, hl, hp] at hok
      exact hok.2.symm

/-- Witness for C9: with `clientAllOk` and plenty of fuel, the run
equals the one-iteration run and its trace is one listing fetch plus
the one-second sleep. -/
theorem claim9_witness :
    populate_database clientAllOk (fun _ => []) {} 5
      = populate_database clientAllOk (fun _ => []) {} 1 ∧
    ∀ st' evs, populate_database clientAllOk (fun _ => []) {} 5 = .ok (st', evs) →
      evs = [Ev.listingFetch pokeListUrl, Ev.sleepSec 1] :=
  claim9_single_listing_page_with_throttle clientAllOk (fun _ => []) {} 5 (by omega)

/-- Counterexample to C6: the listing fetch succeeds, the second
item's detail fetch succeeds, only the first item's detail fetch
fails — yet the whole run aborts with that error (nothing is caught or
counted), so a single item's failure is NOT "caught and counted
without aborting the batch". -/
theorem claim6_counterexample :
    clientFirstItemFails.listing pokeListUrl
      = .ok { results := [⟨"bulbasaur", "u1"⟩, ⟨"ivysaur", "u2"⟩], next := some "page2" } ∧
    clientFirstItemFails.detail "u1" = .error .netError ∧
    clientFirstItemFails.detail "u2" = .ok detailIvysaur ∧
    populate_database clientFirstItemFails (fun _ => []) {} 1
      = .error (.fetch .netError) :=
  ⟨rfl, rfl, rfl, rfl⟩

/-- C6 amended: `populate_database` has no per-item error handling.
A failure of the top-level listing fetch aborts the run with that
error — this half of the claim holds — but a failure while processing
an individual item (here: its detail fetch) equally propagates and
aborts the whole run; failed items are never caught, counted or
skipped. -/
theorem claim6_any_failure_aborts_run
    (c : Client) (jss : Nat → List Nat) (st : Store) (fuel : Nat) (e : FetchError) :
    (c.listing pokeListUrl = .error e →
      populate_database c jss st (fuel + 1) = .error (.fetch e)) ∧
    (∀ data entry rest, c.listing pokeListUrl = .ok data →
      data.results = entry :: rest → c.detail entry.url = .error e →
      populate_database c jss st (fuel + 1) = .error (.fetch e)) := by
  constructor
  · intro hl
    simp [populate_database, page_loop, hl]
  · intro data entry rest hl hres hd
    simp [populate_database, page_loop, hl, hres, process_items, hd]

/-- Witness for C6's amended theorem: a client whose listing fetch
fails aborts the run fatally, and `clientFirstItemFails`'s first-item
detail failure aborts the run with the same error. -/
theorem claim6_witness :
    populate_database
      { listing := fun _ => .error .netError
        detail := fun _ => .error .netError
        species := fun _ => .error .netError
        generationFetch := fun _ => ⟨1, ⟨"kanto"⟩⟩ }
      (fun _ => []) {} 1 = .error (.fetch .netError) ∧
    populate_database clientFirstItemFails (fun _ => []) {} 1
      = .error (.fetch .netError) :=
  ⟨(claim6_any_failure_aborts_run _ (fun _ => []) {} 0 .netError).1 rfl,
   (claim6_any_failure_aborts_run clientFirstItemFails (fun _ => []) {} 0 .netError).2
     { results := [⟨"bulbasaur", "u1"⟩, ⟨"ivysaur", "u2"⟩], next := some "page2" }
     ⟨"bulbasaur", "u1"⟩ [⟨"ivysaur", "u2"⟩] rfl rfl rfl⟩

/-- C1: the move sampling step returns a candidate list of at most 4
unchanged and in order; on a longer list it returns exactly 4 entries
drawn from the list without replacement (a sub-permutation), obtained
by sampling 4 distinct positions and reading them off; and the
position sampler maps the valid `randbelow` streams bijectively onto
the duplicate-free 4-element position sequences, so a uniform random
stream induces a uniform sample. -/
theorem claim1_move_sampling {α : Type} [Inhabited α] (candidates : List α)
    (js : List Nat) :
    (candidates.length ≤ 4 → select_moves candidates js = candidates) ∧
    (4 < candidates.length →
      (select_moves candidates js).length = 4 ∧
      List.Subperm (select_moves candidates js) candidates ∧
      select_moves candidates js =
        (sampleGo 4 js (List.range candidates.length)).map
          (fun i => candidates.getD i default) ∧
      Set.BijOn (fun p => sampleGo 4 p (List.range candidates.length))
        {p : List Nat | p.length = 4 ∧ ∀ i < 4, p.getD i 0 < candidates.length - i}
        {l : List Nat | l.length = 4 ∧ l.Nodup ∧ ∀ x ∈ l, x < candidates.length}) := by
  constructor
  · intro h
    unfold select_moves
    rw [if_neg (by omega)]
  · intro h
    have hsel : select_moves candidates js = sampleGo 4 js candidates := by
      unfold select_moves
      rw [if_pos h]
    refine ⟨?_, ?_, ?_, ?_⟩
    · rw [hsel]
      exact sampleGo_length 4 js candidates (by omega)
    · rw [hsel]
      exact sampleGo_subperm 4 js candidates
    · rw [hsel]
      conv_lhs => rw [← range_map_getD candidates]
      exact sampleGo_map 4 js (List.range candidates.length) _
    · have hbij := sampleGo_bijOn 4 (List.range candidates.length)
        (List.nodup_range _) (by rw [List.length_range]; omega)
      have hs : {p : List Nat | p.length = 4 ∧
            ∀ i < 4, p.getD i 0 < (List.range candidates.length).length - i}
          = {p : List Nat | p.length = 4 ∧
            ∀ i < 4, p.getD i 0 < candidates.length - i} := by
        ext p
        simp [List.length_range]
      have ht : {l : List Nat | l.length = 4 ∧ l.Nodup ∧
            ∀ x ∈ l, x ∈ List.range candidates.length}
          = {l : List Nat | l.length = 4 ∧ l.Nodup ∧
            ∀ x ∈ l, x < candidates.length} := by
        ext l
        simp [List.mem_range]
      rw [hs, ht] at hbij
      exact hbij

/-- Witness for C1: a 3-element candidate list is returned unchanged,
and a 6-element list is sampled down to 4 entries drawn from it
without replacement. -/
theorem claim1_witness :
    select_moves ["a", "b", "c"] ([] : List Nat) = ["a", "b", "c"] ∧
    (select_moves ["m0", "m1", "m2", "m3", "m4", "m5"] [2, 0, 3, 1]).length = 4 ∧
    List.Subperm (select_moves ["m0", "m1", "m2", "m3", "m4", "m5"] [2, 0, 3, 1])
      ["m0", "m1", "m2", "m3", "m4", "m5"] :=
  ⟨(claim1_move_sampling ["a", "b", "c"] []).1 (by decide),
   ((claim1_move_sampling ["m0", "m1", "m2", "m3", "m4", "m5"] [2, 0, 3, 1]).2
     (by decide)).1,
   ((claim1_move_sampling ["m0", "m1", "m2", "m3", "m4", "m5"] [2, 0, 3, 1]).2
     (by decide)).2.1⟩

/-- C3: within one `get_type` or `get_moves` call (over a store whose
name column is duplicate-free, as the unique constraint guarantees),
positions carrying the same name resolve to the same row instance, the
name column stays duplicate-free, and each requested name ends with
exactly one row in the table. -/
theorem claim3_name_resolution_dedup (names : List String) (st : Store)
    (ht : (st.typeRows.map Row.name).Nodup) (hm : (st.moveRows.map Row.name).Nodup) :
    (∀ (i j : Nat), names[i]? = names[j]? →
      (get_type names st).1[i]? = (get_type names st).1[j]?) ∧
    ((get_type names st).2.typeRows.map Row.name).Nodup ∧
    (∀ n ∈ names,
      ((get_type names st).2.typeRows.filter (fun r => r.name == n)).length = 1) ∧
    (∀ (i j : Nat), names[i]? = names[j]? →
      (get_moves names st).1[i]? = (get_moves names st).1[j]?) ∧
    ((get_moves names st).2.moveRows.map Row.name).Nodup ∧
    (∀ n ∈ names,
      ((get_moves names st).2.moveRows.filter (fun r => r.name == n)).length = 1) := by
  have h1 := resolve_dedup_spec names st.typeRows st.nextTypeId ht
  have h2 := resolve_dedup_spec names st.moveRows st.nextMoveId hm
  exact ⟨h1.1, h1.2.1, h1.2.2, h2.1, h2.2.1, h2.2.2⟩

/-- Witness for C3: resolving `["grass", "poison", "grass"]` against
the empty store returns the same instance at positions 0 and 2 and
leaves exactly one `grass` row. -/
theorem claim3_witness :
    ((get_type ["grass", "poison", "grass"] {}).2.typeRows.filter
      (fun r => r.name == "grass")).length = 1 ∧
    (get_type ["grass", "poison", "grass"] {}).1[0]?
      = (get_type ["grass", "poison", "grass"] {}).1[2]? ∧
    ((get_moves ["grass", "poison", "grass"] {}).2.moveRows.filter
      (fun r => r.name == "grass")).length = 1 :=
  ⟨(claim3_name_resolution_dedup ["grass", "poison", "grass"] {}
      (by decide) (by decide)).2.2.1 "grass" (by decide),
   (claim3_name_resolution_dedup ["grass", "poison", "grass"] {}
      (by decide) (by decide)).1 0 2 (by decide),
   (claim3_name_resolution_dedup ["grass", "poison", "grass"] {}
      (by decide) (by decide)).2.2.2.2.2 "grass" (by decide)⟩

/-- C4: `save_pokemon` samples the candidate move list before
resolving moves — the resolver receives at most 4 names, and a move
name missing from the sampled subset (and from the pre-existing `move`
table) is never created as a row by the ingestion of this creature. -/
theorem claim4_only_sampled_moves_upserted (response : PokeResponse) (js : List Nat)
    (fetch : String → GenPayload) (st : Store) :
    (select_moves response.moves js).length ≤ 4 ∧
    ∀ n, n ∉ (select_moves response.moves js).map (fun mv => mv.move.name) →
      (∀ r ∈ st.moveRows, r.name ≠ n) →
      ∀ r ∈ (save_pokemon response js fetch st).1.moveRows, r.name ≠ n := by
  constructor
  · by_cases h : 4 < response.moves.length
    · have hsel : select_moves response.moves js = sampleGo 4 js response.moves := by
        unfold select_moves
        rw [if_pos h]
      rw [hsel, sampleGo_length 4 js response.moves (by omega)]
    · have hsel : select_moves response.moves js = response.moves := by
        unfold select_moves
        rw [if_neg h]
      rw [hsel]
      omega
  · intro n hn hst r hr hrn
    rw [save_pokemon_moveRows, get_moves_moveRows, get_type_moveRows,
        get_type_nextMoveId] at hr
    rcases resolve_mem_rows _ _ _ hr with hmem | hname
    · exact hst r hmem hrn
    · rw [hrn] at hname
      exact hn hname

/-- Witness for C4: ingesting `responseForClaim4` (six candidate
moves) with a stream that samples `m0..m3` never creates a row named
`m5`. -/
theorem claim4_witness :
    (⟨1, "m5"⟩ : Row) ∉
      (save_pokemon responseForClaim4 [0, 0, 0, 0]
        (fun _ => ⟨1, ⟨"kanto"⟩⟩) {}).1.moveRows :=
  fun hmem =>
    (claim4_only_sampled_moves_upserted responseForClaim4 [0, 0, 0, 0]
      (fun _ => ⟨1, ⟨"kanto"⟩⟩) {}).2 "m5" (by decide)
      (by intro r hr; cases hr) ⟨1, "m5"⟩ hmem rfl

end PokemonApi
